import Mathlib

/-!
# Verification of the Butler agent core

A shallow embedding of the turn-resolution loop and tool-registry
composition of the Butler voice-assistant repository, together with
theorems settling the specification claims about them.

The embedding covers:

* `agents/butler_agent.py` — `ButlerAgent.run` and
  `ButlerAgent._execute_tool_call` (the Turn Resolver and Tool Invoker);
* `tools/loader.py` — `initialize_app_tools` (the Tool Registry Builder);
* `tools/external_tool_loaders.py` — `load_community_tools` and
  `load_mcp_tools`.

External collaborators (the OpenAI completion service, `json.loads`,
`os.environ`, the LangChain community-tool namespace, the MCP client) are
modelled as explicit environment records supplying their outcomes, and the
agent's mutable attributes are threaded as an explicit state record.
-/

namespace Butler

/-- Parsed tool-call arguments: the structured mapping produced by
`json.loads(call.function.arguments)`, modelled as a key/value list. -/
abbrev Args := List (String × String)

/-- A tool implementation.  The source dispatches three calling conventions
(async function, LangChain `BaseTool`, plain function); all three receive the
parsed argument mapping and either return a value or raise, which we model as
`Except`: `Except.error e` stands for the implementation raising an exception
whose string form is `e`. -/
abbrev Impl := Args → Except String String

/-- One requested tool call from an assistant message:
`call.id`, `call.function.name`, `call.function.arguments` (raw wire text,
parsed by `json.loads` and so possibly unparseable). -/
structure ToolCall where
  id : String
  name : String
  arguments : String
deriving Repr, DecidableEq

/-- One entry of the conversation record (`self.history`). -/
inductive Message where
  | system : String → Message
  | user : String → Message
  /-- An assistant message carrying final text. -/
  | assistantText : String → Message
  /-- An assistant message carrying requested tool calls
  (`response.choices[0].message` when `finish_reason == "tool_calls"`). -/
  | assistantCalls : List ToolCall → Message
  /-- A tool-result message: `tool_call_id`, then `content`. -/
  | tool : String → String → Message
deriving Repr, DecidableEq

/-- Default of `settings.MODEL_NAME` (`os.getenv("OPENAI_MODEL", ...)`). -/
def MODEL_NAME : String := "o4-mini-2025-04-16"

/-- Default of `settings.HIGH_POWER_MODEL`
(`os.getenv("OPENAI_MODEL_HIGH", ...)`). -/
def HIGH_POWER_MODEL : String := "o3-2025-04-16"

/-- The mutable attributes of `ButlerAgent` touched during a turn. -/
structure AgentState where
  history : List Message
  model_name : String
  exit_requested : Bool
  reset_requested : Bool
  private_chat : Bool
deriving Repr, DecidableEq

/-- The external world seen by `_execute_tool_call`: the outcome of
`json.loads` on raw argument text (`none` = it raises `JSONDecodeError`),
and the agent's `tool_implementations` mapping (`dict.get`). -/
structure ToolEnv where
  parseArgs : String → Option Args
  tool_implementations : String → Option Impl

/-- Lines 161–168 of `butler_agent.py`: the special mode switches applied to
`self` before dispatch. -/
def applyModeSwitches (st : AgentState) (tname : String) : AgentState :=
  if tname = "quit_chat" then { st with exit_requested := true }
  else if tname = "reset_chat" then { st with reset_requested := true }
  else if tname = "enable_high_brain_power" then { st with model_name := HIGH_POWER_MODEL }
  else if tname = "enable_private_mode" then { st with private_chat := true }
  else st

/-- The note-writing block-list of line 173:
`tname in ("append_note", "append_core_memory")`. -/
def blockedNoteTool (tname : String) : Bool :=
  tname == "append_note" || tname == "append_core_memory"

/-- `ButlerAgent._execute_tool_call` (lines 147–198).

Returns `Except.error` when the body raises (which happens exactly when
`json.loads(call.function.arguments)` fails, line 158 — that call sits outside
the `try` block), and otherwise `Except.ok (st', dispatched, msg)` where `st'`
is the updated agent state, `msg` the returned tool-role record, and
`dispatched` the trace of invocations actually made to an underlying
implementation (lines 183/186/189) — empty when dispatch is skipped by the
private-mode gate or because the tool is unknown. -/
def executeToolCall (env : ToolEnv) (st : AgentState) (call : ToolCall) :
    Except String (AgentState × List (String × Args) × Message) :=
  let tname := call.name
  match env.parseArgs call.arguments with
  | none => Except.error ("JSONDecodeError while parsing: " ++ call.arguments)
  | some targs =>
    let st := applyModeSwitches st tname
    let func_or_tool := env.tool_implementations tname
    if st.private_chat && blockedNoteTool tname then
      Except.ok (st, [],
        Message.tool call.id "[Action Blocked] Cannot write to notes while in private mode.")
    else
      match func_or_tool with
      | none => Except.ok (st, [], Message.tool call.id ("unknown tool: " ++ tname))
      | some f =>
        let result :=
          match f targs with
          | Except.ok v => v
          | Except.error e => "[" ++ tname ++ "-error] " ++ e
        Except.ok (st, [(tname, targs)], Message.tool call.id result)

/-- The fan-out of lines 127–132: run `_execute_tool_call` for every call of
one assistant message and collect the tool messages.  Each coroutine's
synchronous body runs on the single event loop, so agent-state side effects
thread through in list order; an uncaught exception from any call (argument
parse failure) propagates out of the `asyncio.gather`. -/
def executeBatch (env : ToolEnv) (st : AgentState) (calls : List ToolCall) :
    Except String (AgentState × List (String × Args) × List Message) :=
  match calls with
  | [] => Except.ok (st, [], [])
  | c :: cs =>
    match executeToolCall env st c with
    | Except.error e => Except.error e
    | Except.ok (st', d, m) =>
      match executeBatch env st' cs with
      | Except.error e => Except.error e
      | Except.ok (st'', ds, ms) => Except.ok (st'', d ++ ds, m :: ms)

/-- One completion-service response (`response.choices[0]`): its
`finish_reason`, the message `content`, and the message `tool_calls`. -/
structure Response where
  finish_reason : String
  content : String
  tool_calls : List ToolCall
deriving Repr, DecidableEq

/-- The `while response.choices[0].finish_reason == "tool_calls"` loop of
`ButlerAgent.run` (lines 115–145).  The completion service is modelled as the
oracle list `responses`, consumed one response per request; the unconsumed
remainder is returned, so the number of completion requests made is the
number of responses consumed.  An empty oracle models the completion call
itself failing, which propagates uncaught. -/
def runLoop (env : ToolEnv) (responses : List Response) (st : AgentState) :
    Except String (AgentState × String × List Response) :=
  match responses with
  | [] => Except.error "completion request failed"
  | r :: rest =>
    if r.finish_reason = "tool_calls" then
      let st1 : AgentState := { st with history := st.history ++ [Message.assistantCalls r.tool_calls] }
      match executeBatch env st1 r.tool_calls with
      | Except.error e => Except.error e
      | Except.ok (st2, _, tool_msgs) =>
        runLoop env rest { st2 with history := st2.history ++ tool_msgs }
    else
      let assistant_reply := r.content.trim
      Except.ok ({ st with history := st.history ++ [Message.assistantText assistant_reply] },
        assistant_reply, rest)

/-- Lines 112–113 of `run`: append the incoming turn's last message to the
history when it is a user message. -/
def appendUserMsg (st : AgentState) (conversation : List Message) : AgentState :=
  match conversation.getLast? with
  | some (Message.user c) => { st with history := st.history ++ [Message.user c] }
  | _ => st

/-- `ButlerAgent.run` (lines 102–145): append the user message, then resolve
the turn against the completion oracle. -/
def run (env : ToolEnv) (responses : List Response) (st : AgentState)
    (conversation : List Message) :
    Except String (AgentState × String × List Response) :=
  runLoop env responses (appendUserMsg st conversation)

/-! ## Tool Registry Builder (`tools/loader.py`) -/

/-- Python `dict` assignment `d[k] = v` on an insertion-ordered mapping:
replace the value in place when the key exists, else append a new entry. -/
def dinsert {α : Type} (m : List (String × α)) (k : String) (v : α) :
    List (String × α) :=
  if m.any (fun p => p.1 == k) then
    m.map (fun p => if p.1 == k then (k, v) else p)
  else m ++ [(k, v)]

/-- Python `dict.update(m')`: assign every entry of `m'` in order. -/
def dupdate {α : Type} (m m' : List (String × α)) : List (String × α) :=
  m'.foldl (fun acc p => dinsert acc p.1 p.2) m

/-- Python `d.get(k)` on an insertion-ordered mapping. -/
def dget {α : Type} (m : List (String × α)) (k : String) : Option α :=
  (m.find? (fun p => p.1 == k)).map Prod.snd

/-- The shape of one schema object as the loader's cleanup pass (lines
132–159 of `loader.py`) distinguishes them: a dict carrying the `"function"`
wrapper with a `name` (and its human description), a wrapped dict whose inner
record lacks a `name`, a raw dict without the wrapper but with a `name`
(community/MCP schemas from `convert_to_openai_function`), a raw dict with
neither, or a non-dictionary object. -/
inductive RawSchema where
  | func (name : String) (desc : String)
  | funcNoName
  | bare (name : String) (desc : String)
  | bareNoName
  | nondict
deriving Repr, DecidableEq

/-- Lines 137–144: discard a non-dictionary schema; wrap a schema missing the
`"function"` key in the expected envelope. -/
def normalizeSchema : RawSchema → Option RawSchema
  | RawSchema.nondict => none
  | RawSchema.bare n d => some (RawSchema.func n d)
  | RawSchema.bareNoName => some RawSchema.funcNoName
  | s => some s

/-- Line 147/153: `schema["function"]["name"]` when
`"function" in schema and "name" in schema["function"]`. -/
def schemaName? : RawSchema → Option String
  | RawSchema.func n _ => some n
  | _ => none

/-- One iteration of the cleanup loop (lines 135–156): normalize, validate,
then keep the schema only when its name was not seen before. -/
def dedupStep (acc : List RawSchema × List String) (schema : RawSchema) :
    List RawSchema × List String :=
  match normalizeSchema schema with
  | none => acc
  | some s =>
    match schemaName? s with
    | none => acc
    | some n => if acc.2.contains n then acc else (acc.1 ++ [s], acc.2 ++ [n])

/-- The final de-duplication and cleanup pass (lines 132–159): returns the
clean unique schema list together with `seen_tool_names`. -/
def finalizeSchemas (schemas : List RawSchema) : List RawSchema × List String :=
  schemas.foldl dedupStep ([], [])

/-- Lines 173–178: rebuild the implementation mapping from the names in
`seen_tool_names`, keeping only names that have an implementation. -/
def filterImpls (seen : List String) (impls : List (String × Impl)) :
    List (String × Impl) :=
  seen.filterMap (fun n => (dget impls n).map (fun v => (n, v)))

/-- The per-category schema filter used for internal tools (e.g. lines 52–54):
`"function" in schema and schema["function"]["name"] in enabled`. -/
def filterBySection (schemas : List RawSchema) (enabled : List String) :
    List RawSchema :=
  schemas.filter (fun s =>
    match schemaName? s with
    | some n => enabled.contains n
    | none => false)

/-- The per-category implementation filter (e.g. lines 48–50): keep the
entries whose name is in the section's enabled set. -/
def filterImplsBySection (impls : List (String × Impl)) (enabled : List String) :
    List (String × Impl) :=
  impls.filter (fun p => enabled.contains p.1)

/-- The configuration read by `initialize_app_tools` from `get_settings()`
and `get_tool_names_from_section`. -/
structure LoaderConfig where
  include_obsidian_tools : Bool
  use_core_memory : Bool
  use_mcp_tools : Bool
  use_semantic_search : Bool
  enabled_core_tools : List String
  enabled_obsidian_tools : List String
  enabled_memory_tools : List String
  enabled_fallback_tools : List String

/-- The tool sources consumed by `initialize_app_tools`: the registry
constants imported from `tools.internal_tools_registry` (a module whose file
is not part of the sources here, so its contents are left arbitrary), and the
outcomes of the external loaders and RAG construction, `Except.error`
standing for the call raising. -/
structure LoaderSources where
  core_impls : List (String × Impl)
  core_schemas : List RawSchema
  obsidian_impls : List (String × Impl)
  obsidian_schemas : List RawSchema
  fallback_impls : List (String × Impl)
  fallback_schemas : List RawSchema
  memory_impls : List (String × Impl)
  memory_schema : RawSchema
  community : List (String × Impl) × List RawSchema
  mcp : Except String (List (String × Impl) × List RawSchema)
  rag_available : Bool
  rag : Except String (List (String × Impl) × List RawSchema)

/-- `initialize_app_tools` (`tools/loader.py`, lines 27–180): merge the tool
sources in order (core, community, MCP, obsidian/memory/RAG-or-fallback) into
`final_implementations` (a dict, so later assignments overwrite) and
`final_schemas` (a list, appended in order), then run the cleanup /
de-duplication pass and rebuild the implementation mapping from the surviving
schema names. -/
def initializeAppTools (cfg : LoaderConfig) (src : LoaderSources) :
    List (String × Impl) × List RawSchema :=
  let final_implementations : List (String × Impl) := []
  let final_schemas : List RawSchema := []
  -- 1. internal core tools
  let final_implementations :=
    dupdate final_implementations
      (filterImplsBySection src.core_impls cfg.enabled_core_tools)
  let final_schemas :=
    final_schemas ++ filterBySection src.core_schemas cfg.enabled_core_tools
  -- 2. community tools
  let final_implementations := dupdate final_implementations src.community.1
  let final_schemas := final_schemas ++ src.community.2
  -- 3. MCP tools if enabled (failures caught, contributing nothing)
  let step3 : List (String × Impl) × List RawSchema :=
    if cfg.use_mcp_tools then
      match src.mcp with
      | Except.ok mcp => (dupdate final_implementations mcp.1, final_schemas ++ mcp.2)
      | Except.error _ => (final_implementations, final_schemas)
    else (final_implementations, final_schemas)
  let final_implementations := step3.1
  let final_schemas := step3.2
  -- 4. Obsidian-related tools
  let step4 : List (String × Impl) × List RawSchema :=
    if cfg.include_obsidian_tools then
      let fi :=
        dupdate final_implementations
          (filterImplsBySection src.obsidian_impls cfg.enabled_obsidian_tools)
      let fs :=
        final_schemas ++ filterBySection src.obsidian_schemas cfg.enabled_obsidian_tools
      let memo : List (String × Impl) × List RawSchema :=
        if cfg.use_core_memory then
          (dupdate fi (filterImplsBySection src.memory_impls cfg.enabled_memory_tools),
           fs ++ (match schemaName? src.memory_schema with
                  | some n =>
                    if cfg.enabled_memory_tools.contains n then [src.memory_schema] else []
                  | none => []))
        else (fi, fs)
      if src.rag_available && cfg.use_semantic_search then
        match src.rag with
        | Except.ok rag => (dupdate memo.1 rag.1, memo.2 ++ rag.2)
        | Except.error _ =>
          (dupdate memo.1
             (filterImplsBySection src.fallback_impls cfg.enabled_fallback_tools),
           memo.2 ++ filterBySection src.fallback_schemas cfg.enabled_fallback_tools)
      else
        (dupdate memo.1
           (filterImplsBySection src.fallback_impls cfg.enabled_fallback_tools),
         memo.2 ++ filterBySection src.fallback_schemas cfg.enabled_fallback_tools)
    else (final_implementations, final_schemas)
  let cleaned := finalizeSchemas step4.2
  (filterImpls cleaned.2 step4.1, cleaned.1)

/-! ## External tool loaders (`tools/external_tool_loaders.py`) -/

/-- A loaded tool instance (a LangChain community tool object or an MCP
tool): its `name`, `description`, `parameters` text and callable behaviour. -/
structure ToolInstance where
  name : String
  description : String
  parameters : String
  impl : Impl

/-- The external world seen by the loaders: `os.environ.get`, the
`langchain_community.tools` namespace (`getattr` plus instantiation, whose
failure — `AttributeError` or any other exception — is `Except.error`), and
the MCP client's `get_tools` for a processed server dict. -/
structure LoadEnv where
  environ : String → Option String
  community_tools : String → Except String ToolInstance
  get_tools :
    List (String × (Option String × Option String)) →
      Except String (List ToolInstance)

/-- `[var for var in vars if not os.environ.get(var)]` — a variable is
missing when unset or set to the empty string (both falsy). -/
def missingEnvVars (env : LoadEnv) (vars : List String) : List String :=
  vars.filter (fun v =>
    match env.environ v with
    | none => true
    | some s => s == "")

/-- Configuration of one community tool (`tool_configs` entry): its class
name, optional `required_env_vars`, and the optional `override` record
(`name` / `description`; `init_args` feed instantiation, which the
environment's `community_tools` outcome already accounts for). -/
structure CommToolConfig where
  name : String
  required_env_vars : Option (List String)
  override_name : Option String
  override_description : Option String

/-- The body of one `load_community_tools` iteration after the env-var check
(lines 42–63): instantiate the tool (failure: log and continue), apply name /
description overrides, register the implementation under the instance's name
and append its raw converted schema. -/
def loadCommunityStep (env : LoadEnv)
    (acc : List (String × Impl) × List RawSchema)
    (tool_config : CommToolConfig) :
    List (String × Impl) × List RawSchema :=
  match tool_config.required_env_vars with
  | some vars =>
    if (missingEnvVars env vars).isEmpty then
      match env.community_tools tool_config.name with
      | Except.error _ => acc
      | Except.ok inst =>
        let inst :=
          match tool_config.override_name with
          | some n => { inst with name := n }
          | none => inst
        let inst :=
          match tool_config.override_description with
          | some d => { inst with description := d }
          | none => inst
        (dinsert acc.1 inst.name inst.impl,
         acc.2 ++ [RawSchema.bare inst.name inst.description])
    else acc
  | none =>
    match env.community_tools tool_config.name with
    | Except.error _ => acc
    | Except.ok inst =>
      let inst :=
        match tool_config.override_name with
        | some n => { inst with name := n }
        | none => inst
      let inst :=
        match tool_config.override_description with
        | some d => { inst with description := d }
        | none => inst
      (dinsert acc.1 inst.name inst.impl,
       acc.2 ++ [RawSchema.bare inst.name inst.description])

/-- `load_community_tools` (lines 10–65). -/
def loadCommunityTools (env : LoadEnv) (tool_configs : List CommToolConfig) :
    List (String × Impl) × List RawSchema :=
  tool_configs.foldl (loadCommunityStep env) ([], [])

/-- The `override` record of one MCP tool configuration. -/
structure McpOverride where
  name : Option String
  description : Option String
  parameters : Option String

/-- Configuration of one tool explicitly mentioned under an MCP server. -/
structure McpToolConfig where
  name : String
  enabled : Option Bool
  override : Option McpOverride

/-- Configuration of one MCP server (`server_configs` entry). -/
structure McpServerConfig where
  name : Option String
  required_env_vars : Option (List String)
  transport : Option String
  url : Option String
  tools : List McpToolConfig

/-- `server.get('name', f'server_\x7bi\x7d')`. -/
def serverKey (i : Nat) (server : McpServerConfig) : String :=
  match server.name with
  | some n => n
  | none => "server_" ++ toString i

/-- `\x7btool['name']: tool for tool in server.get('tools', [])\x7d`. -/
def toolsDict (tools : List McpToolConfig) : List (String × McpToolConfig) :=
  tools.foldl (fun d t => dinsert d t.name t) []

/-- One iteration of the server-processing loop of `load_mcp_tools`
(lines 89–106): skip a server whose required environment variables are
missing; otherwise record its connection entry and its per-tool
configuration map under the server's key. -/
def processServerStep (env : LoadEnv)
    (acc : List (String × (Option String × Option String)) ×
           List (String × List (String × McpToolConfig)))
    (p : Nat × McpServerConfig) :
    List (String × (Option String × Option String)) ×
      List (String × List (String × McpToolConfig)) :=
  let server := p.2
  let skip :=
    match server.required_env_vars with
    | some vars => !(missingEnvVars env vars).isEmpty
    | none => false
  if skip then acc
  else
    let key := serverKey p.1 server
    (dinsert acc.1 key (server.transport, server.url),
     dinsert acc.2 key (toolsDict server.tools))

/-- The server-processing loop of `load_mcp_tools`, producing
`processed_servers_dict` and `tool_configurations`. -/
def processServers (env : LoadEnv) (server_configs : List McpServerConfig) :
    List (String × (Option String × Option String)) ×
      List (String × List (String × McpToolConfig)) :=
  (server_configs.enum).foldl (processServerStep env) ([], [])

/-- Lines 119–123: look one tool's name up across the per-server tool
configuration maps. -/
def findToolConfig
    (tool_configurations : List (String × List (String × McpToolConfig)))
    (tname : String) : Option McpToolConfig :=
  match tool_configurations.find? (fun p => (dget p.2 tname).isSome) with
  | some p => dget p.2 tname
  | none => none

/-- Lines 132–137: apply an explicit `override` record to a discovered MCP
tool. -/
def applyMcpOverrides (tool : ToolInstance) (cfg : McpToolConfig) :
    ToolInstance :=
  match cfg.override with
  | none => tool
  | some o =>
    { tool with
      name := o.name.getD tool.name
      description := o.description.getD tool.description
      parameters := o.parameters.getD tool.parameters }

/-- One iteration of the discovered-tool loop of `load_mcp_tools`
(lines 115–146): skip a tool its configuration disables, apply overrides,
register the async wrapper and append the converted raw schema. -/
def loadMcpStep
    (tool_configurations : List (String × List (String × McpToolConfig)))
    (acc : List (String × Impl) × List RawSchema)
    (tool : ToolInstance) :
    List (String × Impl) × List RawSchema :=
  match findToolConfig tool_configurations tool.name with
  | some tool_config =>
    if !(tool_config.enabled.getD true) then acc
    else
      let tool := applyMcpOverrides tool tool_config
      (dinsert acc.1 tool.name tool.impl,
       acc.2 ++ [RawSchema.bare tool.name tool.description])
  | none =>
    (dinsert acc.1 tool.name tool.impl,
     acc.2 ++ [RawSchema.bare tool.name tool.description])

/-- `load_mcp_tools` (lines 67–158): process the server configurations,
query the MCP client, and register every discovered tool that is not
explicitly disabled; any client failure is caught (lines 148–156) and the
accumulated pair — empty, as the client call precedes registration — is
returned. -/
def loadMcpTools (env : LoadEnv) (server_configs : List McpServerConfig) :
    List (String × Impl) × List RawSchema :=
  if server_configs.isEmpty then ([], [])
  else
    let processed := processServers env server_configs
    if processed.1.isEmpty then ([], [])
    else
      match env.get_tools processed.1 with
      | Except.error _ => ([], [])
      | Except.ok mcp_tools => mcp_tools.foldl (loadMcpStep processed.2) ([], [])

/-! ## The conversation-record invariant -/

/-- Requested-call ids carried forward past one message: an assistant message
resets the set of ids a later tool-result message may reference (to its
requested calls' ids, or to nothing for a plain-text assistant message);
other roles leave it unchanged. -/
def nextCur (cur : List String) : Message → List String
  | Message.assistantCalls cs => cs.map ToolCall.id
  | Message.assistantText _ => []
  | _ => cur

/-- Walk the record carrying the ids requested by the most recent preceding
assistant message; a tool-role message must reference exactly one of them. -/
def histInvAux : List String → List Message → Bool
  | _, [] => true
  | cur, m :: ms =>
    (match m with
     | Message.tool id _ => cur.count id == 1
     | _ => true) && histInvAux (nextCur cur m) ms

/-- The conversation-record invariant: every tool-role message's
`tool_call_id` matches exactly one requested call of the most recent
preceding assistant message (so in particular no tool result appears without
a matching request). -/
def historyInv (ms : List Message) : Bool := histInvAux [] ms

/-- The requested-call ids in effect after traversing a message list. -/
def curAfter (cur : List String) : List Message → List String
  | [] => cur
  | m :: ms => curAfter (nextCur cur m) ms

/-- Is a message an assistant message carrying requested tool calls?  (Each
such message opens one dispatch batch in the turn loop.) -/
def isAssistantCallsMsg : Message → Bool
  | Message.assistantCalls _ => true
  | _ => false

/-- Is a message an assistant message carrying final text? -/
def isAssistantTextMsg : Message → Bool
  | Message.assistantText _ => true
  | _ => false

/-! ## Concrete instances used in witnesses and counterexamples -/

/-- A concrete stand-in for `json.loads` on the argument texts exercised
below: the empty JSON object parses to the empty mapping, a one-pair object
to a singleton mapping, and any other text fails to parse (raises). -/
def demoParse (s : String) : Option Args :=
  if s = "\x7b\x7d" then some []
  else if s = "\x7b\x22city\x22: \x22Paris\x22\x7d" then some [("city", "Paris")]
  else none

/-- A community web-search implementation. -/
def commSearchImpl : Impl := fun _ => Except.ok "community result"

/-- A built-in web-search implementation. -/
def coreSearchImpl : Impl := fun _ => Except.ok "core result"

/-- An implementation that always raises. -/
def raisingImpl : Impl := fun _ => Except.error "boom"

/-- A tool environment whose parser fails on the malformed text used in the
counterexample for the invoker contract. -/
def cexToolEnv : ToolEnv :=
  { parseArgs := demoParse
    tool_implementations := fun n =>
      if n == "web_search" then some coreSearchImpl
      else if n == "explode" then some raisingImpl
      else none }

/-- A tool environment whose parser accepts every argument text. -/
def totalToolEnv : ToolEnv :=
  { parseArgs := fun _ => some []
    tool_implementations := fun n =>
      if n == "web_search" then some coreSearchImpl
      else if n == "explode" then some raisingImpl
      else none }

/-- A freshly initialised agent state. -/
def demoState : AgentState :=
  { history := [Message.system "You are a butler."]
    model_name := MODEL_NAME
    exit_requested := false
    reset_requested := false
    private_chat := false }

/-- The same state with private mode already active. -/
def privateState : AgentState := { demoState with private_chat := true }

/-- A tool call whose raw arguments are not valid JSON. -/
def badCall : ToolCall :=
  { id := "call_1", name := "web_search", arguments := "not json" }

/-- A well-formed tool call. -/
def goodCall : ToolCall :=
  { id := "call_2", name := "web_search", arguments := "\x7b\x7d" }

/-- A well-formed call to a note-writing tool. -/
def noteCall : ToolCall :=
  { id := "call_3", name := "append_note", arguments := "\x7b\x7d" }

/-- A well-formed call to a tool whose implementation raises. -/
def explodeCall : ToolCall :=
  { id := "call_4", name := "explode", arguments := "\x7b\x7d" }

/-- A well-formed call to the quit control tool. -/
def quitCall : ToolCall :=
  { id := "call_5", name := "quit_chat", arguments := "\x7b\x7d" }

/-- A completion response requesting two tool calls. -/
def toolCallsResponse : Response :=
  { finish_reason := "tool_calls", content := "", tool_calls := [goodCall, explodeCall] }

/-- A completion response requesting one tool call. -/
def oneCallResponse : Response :=
  { finish_reason := "tool_calls", content := "", tool_calls := [quitCall] }

/-- A final plain-answer completion response. -/
def stopResponse : Response :=
  { finish_reason := "stop", content := "  All done, sir.  ", tool_calls := [] }

/-- The agent state reached from `demoState` after a turn consisting of the
user message `"hello"` and the single final completion `stopResponse`. -/
def demoFinalState : AgentState :=
  { history := [Message.system "You are a butler.", Message.user "hello",
                Message.assistantText stopResponse.content.trim]
    model_name := MODEL_NAME
    exit_requested := false
    reset_requested := false
    private_chat := false }

/-- A loader configuration with only the core and community sources active. -/
def cexLoaderCfg : LoaderConfig :=
  { include_obsidian_tools := false
    use_core_memory := false
    use_mcp_tools := false
    use_semantic_search := false
    enabled_core_tools := ["web_search"]
    enabled_obsidian_tools := []
    enabled_memory_tools := []
    enabled_fallback_tools := [] }

/-- Sources in which the built-in registry and the community loader both
declare a tool named `web_search`. -/
def cexLoaderSrc : LoaderSources :=
  { core_impls := [("web_search", coreSearchImpl)]
    core_schemas := [RawSchema.func "web_search" "built-in web search"]
    obsidian_impls := []
    obsidian_schemas := []
    fallback_impls := []
    fallback_schemas := []
    memory_impls := []
    memory_schema := RawSchema.nondict
    community := ([("web_search", commSearchImpl)],
                  [RawSchema.bare "web_search" "community web search"])
    mcp := Except.error "disabled"
    rag_available := false
    rag := Except.error "disabled" }

/-- Sources in which the core registry carries a schema named `ghost_tool`
with no implementation of that name anywhere. -/
def ghostLoaderSrc : LoaderSources :=
  { core_impls := []
    core_schemas := [RawSchema.func "ghost_tool" "schema with no implementation"]
    obsidian_impls := []
    obsidian_schemas := []
    fallback_impls := []
    fallback_schemas := []
    memory_impls := []
    memory_schema := RawSchema.nondict
    community := ([], [])
    mcp := Except.error "disabled"
    rag_available := false
    rag := Except.error "disabled" }

/-- The matching configuration enabling `ghost_tool` as a core tool. -/
def ghostLoaderCfg : LoaderConfig :=
  { cexLoaderCfg with enabled_core_tools := ["ghost_tool"] }

/-- A load environment with an empty process environment, so every declared
required credential is missing. -/
def emptyEnvLoadEnv : LoadEnv :=
  { environ := fun _ => none
    community_tools := fun _ =>
      Except.ok { name := "wikipedia", description := "look things up"
                  parameters := "query", impl := coreSearchImpl }
    get_tools := fun _ => Except.ok [] }

/-- A community tool configuration declaring a required credential. -/
def wikiToolConfig : CommToolConfig :=
  { name := "WikipediaQueryRun"
    required_env_vars := some ["BUTLER_WIKI_KEY"]
    override_name := none
    override_description := none }

/-- An MCP server configuration declaring a required credential. -/
def calendarServerConfig : McpServerConfig :=
  { name := some "calendar"
    required_env_vars := some ["BUTLER_CALENDAR_TOKEN"]
    transport := some "sse"
    url := some "http://localhost:8000/sse"
    tools := [] }

/-- The registry-collision scenario: a configuration that enables one core
tool named `X` and nothing else. -/
def twoSourceCfg (X : String) : LoaderConfig :=
  { cexLoaderCfg with enabled_core_tools := [X] }

/-- The registry-collision scenario: the built-in registry and the community
loader both declare a tool named `X`, with their own descriptions and
implementations. -/
def twoSourceSrc (X d1 d2 : String) (f g : Impl) : LoaderSources :=
  { cexLoaderSrc with
    core_impls := [(X, f)]
    core_schemas := [RawSchema.func X d1]
    community := ([(X, g)], [RawSchema.bare X d2]) }

/-! ## Helper lemmas -/

theorem applyModeSwitches_history (st : AgentState) (n : String) :
    (applyModeSwitches st n).history = st.history := by
  unfold applyModeSwitches
  repeat' split
  all_goals rfl

theorem applyModeSwitches_private_mono (st : AgentState) (n : String)
    (h : st.private_chat = true) :
    (applyModeSwitches st n).private_chat = true := by
  unfold applyModeSwitches
  repeat' split
  all_goals first | rfl | exact h

/-- When the raw arguments parse, `_execute_tool_call` returns a tool-role
result record tagged with the call's id, and the final agent state is the
mode-switched one. -/
theorem executeToolCall_ok (env : ToolEnv) (st : AgentState) (c : ToolCall)
    (a : Args) (h : env.parseArgs c.arguments = some a) :
    ∃ ds content,
      executeToolCall env st c =
        Except.ok (applyModeSwitches st c.name, ds, Message.tool c.id content) := by
  unfold executeToolCall
  rw [h]
  dsimp only
  split
  · exact ⟨[], _, rfl⟩
  · split
    · exact ⟨[], _, rfl⟩
    · exact ⟨[(c.name, a)], _, rfl⟩

/-- Whenever `_execute_tool_call` returns, the agent state it leaves behind
is exactly the mode-switched input state. -/
theorem executeToolCall_state (env : ToolEnv) (st : AgentState) (c : ToolCall)
    (st' : AgentState) (ds : List (String × Args)) (m : Message)
    (h : executeToolCall env st c = Except.ok (st', ds, m)) :
    st' = applyModeSwitches st c.name := by
  cases hp : env.parseArgs c.arguments with
  | none =>
    unfold executeToolCall at h
    rw [hp] at h
    exact absurd h (by simp)
  | some a =>
    obtain ⟨ds', ct, heq⟩ := executeToolCall_ok env st c a hp
    rw [heq] at h
    injection h with h1
    simp only [Prod.mk.injEq] at h1
    exact h1.1.symm

/-- When every argument text parses, a whole batch completes: every call of
the batch yields exactly one tool-role record tagged with its own id, and the
conversation record is untouched by the batch itself. -/
theorem executeBatch_ok (env : ToolEnv)
    (hp : ∀ s, (env.parseArgs s).isSome = true) :
    ∀ (calls : List ToolCall) (st : AgentState),
      ∃ st' ds msgs,
        executeBatch env st calls = Except.ok (st', ds, msgs) ∧
        st'.history = st.history ∧
        List.Forall₂ (fun (c : ToolCall) (m : Message) =>
          ∃ content, m = Message.tool c.id content) calls msgs := by
  intro calls
  induction calls with
  | nil =>
    intro st
    exact ⟨st, [], [], rfl, rfl, List.Forall₂.nil⟩
  | cons c cs ih =>
    intro st
    obtain ⟨a, ha⟩ := Option.isSome_iff_exists.1 (hp c.arguments)
    obtain ⟨d, content, hc⟩ := executeToolCall_ok env st c a ha
    obtain ⟨st', ds, msgs, hb, hh, hfa⟩ := ih (applyModeSwitches st c.name)
    refine ⟨st', d ++ ds, Message.tool c.id content :: msgs, ?_, ?_, ?_⟩
    · simp only [executeBatch, hc, hb]
    · rw [hh, applyModeSwitches_history]
    · exact List.Forall₂.cons ⟨content, rfl⟩ hfa

theorem forall2_mem_right {α β : Type} {R : α → β → Prop} :
    ∀ {l1 : List α} {l2 : List β}, List.Forall₂ R l1 l2 →
      ∀ b ∈ l2, ∃ a ∈ l1, R a b := by
  intro l1 l2 h
  induction h with
  | nil => intro b hb; cases hb
  | @cons x y xs ys hr _ ih =>
    intro b hb
    rcases List.mem_cons.1 hb with rfl | hb
    · exact ⟨x, List.mem_cons_self x xs, hr⟩
    · obtain ⟨a, ha, har⟩ := ih b hb
      exact ⟨a, List.mem_cons_of_mem _ ha, har⟩

theorem histInvAux_append (xs ys : List Message) :
    ∀ cur, histInvAux cur (xs ++ ys) =
      (histInvAux cur xs && histInvAux (curAfter cur xs) ys) := by
  induction xs with
  | nil => intro cur; simp [histInvAux, curAfter]
  | cons m ms ih =>
    intro cur
    simp only [List.cons_append, histInvAux, curAfter, List.append_eq, ih,
      Bool.and_assoc]

theorem histInvAux_of_tool (cur : List String) :
    ∀ msgs : List Message,
      (∀ m ∈ msgs, ∃ id c, m = Message.tool id c ∧ cur.count id = 1) →
      histInvAux cur msgs = true := by
  intro msgs
  induction msgs with
  | nil => intro _; rfl
  | cons m ms ih =>
    intro h
    obtain ⟨id, c, hm, hc⟩ := h m (List.mem_cons_self _ _)
    subst hm
    simp [histInvAux, nextCur, hc,
      ih (fun m' hm' => h m' (List.mem_cons_of_mem _ hm'))]

/-- The turn loop only appends to the conversation record, and it preserves
the record invariant, provided every argument text parses and the completion
service requests calls with pairwise-distinct ids. -/
theorem runLoop_hist (env : ToolEnv) (hp : ∀ s, (env.parseArgs s).isSome = true) :
    ∀ (responses : List Response) (st st' : AgentState) (out : String)
      (rest : List Response),
      (∀ r ∈ responses, (r.tool_calls.map ToolCall.id).Nodup) →
      runLoop env responses st = Except.ok (st', out, rest) →
      (∃ ext, st'.history = st.history ++ ext) ∧
      (∀ cur, histInvAux cur st.history = true → histInvAux cur st'.history = true) := by
  intro responses
  induction responses with
  | nil =>
    intro st st' out rest _ h
    exact absurd h (by simp [runLoop])
  | cons r rest' ih =>
    intro st st' out rest hn h
    by_cases hf : r.finish_reason = "tool_calls"
    · obtain ⟨st2, ds, msgs, hb, hh, hfa⟩ :=
        executeBatch_ok env hp r.tool_calls
          { st with history := st.history ++ [Message.assistantCalls r.tool_calls] }
      simp only [runLoop, hf, if_true, hb] at h
      obtain ⟨⟨ext', hext⟩, hinv⟩ :=
        ih _ st' out rest (fun r' hr' => hn r' (List.mem_cons_of_mem _ hr')) h
    -- the history reached before the recursive call
      have hmid : st2.history ++ msgs =
          st.history ++ ([Message.assistantCalls r.tool_calls] ++ msgs) := by
        rw [hh]
        simp
      refine ⟨⟨[Message.assistantCalls r.tool_calls] ++ msgs ++ ext', ?_⟩, ?_⟩
      · rw [hext]
        dsimp only
        rw [hmid]
        simp
      · intro cur hcur
        apply hinv cur
        dsimp only
        rw [hmid, histInvAux_append]
        rw [hcur]
        simp only [Bool.true_and]
        have hone : ∀ m ∈ msgs, ∃ id c, m = Message.tool id c ∧
            (r.tool_calls.map ToolCall.id).count id = 1 := by
          intro m hm
          obtain ⟨cl, hcl, content, hmc⟩ := forall2_mem_right hfa m hm
          refine ⟨cl.id, content, hmc, ?_⟩
          exact List.count_eq_one_of_mem (hn r (List.mem_cons_self _ _))
            (List.mem_map_of_mem _ hcl)
        simpa [histInvAux, nextCur] using
          histInvAux_of_tool (r.tool_calls.map ToolCall.id) msgs hone
    · simp only [runLoop, hf, if_false, Except.ok.injEq, Prod.mk.injEq] at h
      obtain ⟨hst, _, hrest⟩ := h
      refine ⟨⟨[Message.assistantText r.content.trim], by rw [← hst]⟩, ?_⟩
      intro cur hcur
      rw [← hst]
      dsimp only
      rw [histInvAux_append, hcur]
      simp [histInvAux, nextCur]

/-- One `tool_calls` round of the turn loop: it appends the assistant
message carrying the requested calls plus one tool-role record per call, and
continues with the remaining responses. -/
theorem runLoop_round (env : ToolEnv) (hp : ∀ s, (env.parseArgs s).isSome = true)
    (r : Response) (rest : List Response) (st : AgentState)
    (hf : r.finish_reason = "tool_calls") :
    ∃ (stN : AgentState) (t : List Message),
      runLoop env (r :: rest) st = runLoop env rest stN ∧
      stN.history = st.history ++ [Message.assistantCalls r.tool_calls] ++ t ∧
      List.Forall₂ (fun (c : ToolCall) (m : Message) =>
        ∃ content, m = Message.tool c.id content) r.tool_calls t := by
  obtain ⟨st2, ds, msgs, hb, hh, hfa⟩ :=
    executeBatch_ok env hp r.tool_calls
      { st with history := st.history ++ [Message.assistantCalls r.tool_calls] }
  refine ⟨{ st2 with history := st2.history ++ msgs }, msgs, ?_, ?_, hfa⟩
  · simp only [runLoop, hf, if_true, hb]
  · dsimp only
    rw [hh]

/-- Appending the incoming user message only appends, and preserves the
record invariant. -/
theorem appendUserMsg_hist (st : AgentState) (conversation : List Message) :
    (∃ u, (appendUserMsg st conversation).history = st.history ++ u) ∧
    (∀ cur, histInvAux cur st.history = true →
      histInvAux cur (appendUserMsg st conversation).history = true) := by
  unfold appendUserMsg
  split
  · constructor
    · exact ⟨_, rfl⟩
    · intro cur hcur
      dsimp only
      rw [histInvAux_append, hcur]
      simp [histInvAux, nextCur]
  · exact ⟨⟨[], by simp⟩, fun cur hcur => hcur⟩

/-- Every entry of the rebuilt implementation mapping has a name drawn from
`seen_tool_names`. -/
theorem filterImpls_sub (seen : List String) (impls : List (String × Impl))
    (p : String × Impl) (hp : p ∈ filterImpls seen impls) : p.1 ∈ seen := by
  unfold filterImpls at hp
  obtain ⟨n, hn, hmap⟩ := List.mem_filterMap.1 hp
  cases hdg : dget impls n with
  | none => rw [hdg] at hmap; cases hmap
  | some v =>
    rw [hdg] at hmap
    cases hmap
    exact hn

/-- One cleanup iteration preserves the correspondence between seen names and
kept schemas. -/
theorem dedupStep_inv (acc : List RawSchema × List String) (x : RawSchema)
    (hacc : ∀ n ∈ acc.2, ∃ s ∈ acc.1, schemaName? s = some n) :
    ∀ n ∈ (dedupStep acc x).2, ∃ s ∈ (dedupStep acc x).1, schemaName? s = some n := by
  cases hnorm : normalizeSchema x with
  | none =>
    have hd : dedupStep acc x = acc := by unfold dedupStep; rw [hnorm]
    rw [hd]; exact hacc
  | some s =>
    cases hname : schemaName? s with
    | none =>
      have hd : dedupStep acc x = acc := by
        unfold dedupStep; rw [hnorm]; dsimp only; rw [hname]
      rw [hd]; exact hacc
    | some n =>
      cases hcont : acc.2.contains n with
      | true =>
        have hd : dedupStep acc x = acc := by
          unfold dedupStep; rw [hnorm]; dsimp only; rw [hname]; dsimp only
          rw [hcont]; rfl
        rw [hd]; exact hacc
      | false =>
        have hd : dedupStep acc x = (acc.1 ++ [s], acc.2 ++ [n]) := by
          unfold dedupStep; rw [hnorm]; dsimp only; rw [hname]; dsimp only
          rw [hcont]; rfl
        rw [hd]
        intro n' hn'
        rcases List.mem_append.1 hn' with h | h
        · obtain ⟨s', hs', hsn⟩ := hacc n' h
          exact ⟨s', List.mem_append_left _ hs', hsn⟩
        · rw [List.mem_singleton] at h
          subst h
          exact ⟨s, List.mem_append_right _ (List.mem_singleton.2 rfl), hname⟩

/-- Every name in `seen_tool_names` is the name of a kept unique schema. -/
theorem finalize_names :
    ∀ (l : List RawSchema) (acc : List RawSchema × List String),
      (∀ n ∈ acc.2, ∃ s ∈ acc.1, schemaName? s = some n) →
      ∀ n ∈ (l.foldl dedupStep acc).2,
        ∃ s ∈ (l.foldl dedupStep acc).1, schemaName? s = some n := by
  intro l
  induction l with
  | nil => intro acc hacc; exact hacc
  | cons x xs ih =>
    intro acc hacc
    exact ih (dedupStep acc x) (dedupStep_inv acc x hacc)

/-! ## Claims -/

/-- C1 (counterexample): the Tool Invoker does NOT convert an argument-parse
failure into an error result record — `json.loads` runs outside the `try`
block, so on the malformed argument text `"not json"` the invoker raises
(returns `Except.error` in the embedding) instead of returning a Tool Result
Record. -/
theorem claim_C1_counterexample :
    executeToolCall cexToolEnv demoState badCall =
      Except.error "JSONDecodeError while parsing: not json" := rfl

/-- C1 (amended): for every requested tool call whose raw arguments parse
into a structured mapping, the Tool Invoker returns a Tool Result Record and
never raises; but when the raw arguments fail to parse the failure is raised
out of the invoker (it is not converted into an error result record). -/
theorem claim_C1 (env : ToolEnv) (st : AgentState) (c : ToolCall) :
    (∀ a, env.parseArgs c.arguments = some a →
      ∃ st' ds content,
        executeToolCall env st c =
          Except.ok (st', ds, Message.tool c.id content)) ∧
    (env.parseArgs c.arguments = none →
      executeToolCall env st c =
        Except.error ("JSONDecodeError while parsing: " ++ c.arguments)) := by
  constructor
  · intro a ha
    obtain ⟨ds, content, h⟩ := executeToolCall_ok env st c a ha
    exact ⟨_, ds, content, h⟩
  · intro hn
    unfold executeToolCall
    rw [hn]

/-- Witness for C1: a parseable call yields a result record; the malformed
call raises. -/
theorem claim_C1_witness :
    (∃ st' ds content,
      executeToolCall cexToolEnv demoState goodCall =
        Except.ok (st', ds, Message.tool goodCall.id content)) ∧
    executeToolCall cexToolEnv demoState badCall =
      Except.error ("JSONDecodeError while parsing: " ++ badCall.arguments) :=
  ⟨(claim_C1 cexToolEnv demoState goodCall).1 [] rfl,
   (claim_C1 cexToolEnv demoState badCall).2 rfl⟩

/-- C6: with private mode active and a tool name on the note-writing
block-list, the invoker short-circuits with the fixed "action blocked"
result record and dispatches nothing (empty dispatch trace), so the
underlying implementation is never called. -/
theorem claim_C6 (env : ToolEnv) (st : AgentState) (c : ToolCall) (a : Args)
    (hparse : env.parseArgs c.arguments = some a)
    (hpriv : st.private_chat = true)
    (hname : blockedNoteTool c.name = true) :
    executeToolCall env st c =
      Except.ok (applyModeSwitches st c.name, [],
        Message.tool c.id
          "[Action Blocked] Cannot write to notes while in private mode.") := by
  have hcond : ((applyModeSwitches st c.name).private_chat
      && blockedNoteTool c.name) = true := by
    rw [applyModeSwitches_private_mono st c.name hpriv, hname]
    rfl
  unfold executeToolCall
  rw [hparse]
  dsimp only
  rw [if_pos hcond]

/-- Witness for C6: calling `append_note` in private mode produces the fixed
block message with an empty dispatch trace. -/
theorem claim_C6_witness :
    executeToolCall cexToolEnv privateState noteCall =
      Except.ok (applyModeSwitches privateState noteCall.name, [],
        Message.tool noteCall.id
          "[Action Blocked] Cannot write to notes while in private mode.") :=
  claim_C6 cexToolEnv privateState noteCall [] rfl rfl rfl

/-- C7: (fan-out isolation) when every argument text parses, a whole batch
completes with exactly one result record per requested call, tagged with its
own call id, regardless of implementations raising; and (error capture) a
call whose implementation raises — and which is not policy-blocked — still
yields exactly one result record whose content is the formatted
`"[\x7bname\x7d-error] \x7bmessage\x7d"` marker. -/
theorem claim_C7 (env : ToolEnv)
    (hp : ∀ s, (env.parseArgs s).isSome = true) :
    (∀ (st : AgentState) (calls : List ToolCall),
      ∃ st' ds msgs,
        executeBatch env st calls = Except.ok (st', ds, msgs) ∧
        List.Forall₂ (fun (c : ToolCall) (m : Message) =>
          ∃ content, m = Message.tool c.id content) calls msgs) ∧
    (∀ (st : AgentState) (c : ToolCall) (a : Args) (f : Impl) (e : String),
      env.parseArgs c.arguments = some a →
      ((applyModeSwitches st c.name).private_chat && blockedNoteTool c.name) = false →
      env.tool_implementations c.name = some f →
      f a = Except.error e →
      executeToolCall env st c =
        Except.ok (applyModeSwitches st c.name, [(c.name, a)],
          Message.tool c.id ("[" ++ c.name ++ "-error] " ++ e))) := by
  constructor
  · intro st calls
    obtain ⟨st', ds, msgs, hb, _, hfa⟩ := executeBatch_ok env hp calls st
    exact ⟨st', ds, msgs, hb, hfa⟩
  · intro st c a f e hparse hnb himpl herr
    unfold executeToolCall
    rw [hparse]
    dsimp only
    rw [if_neg (by simp [hnb])]
    rw [himpl]
    dsimp only
    rw [herr]

/-- Witness for C7: a two-call batch containing a raising implementation
completes with one record per call, and the raising call's record carries the
formatted error marker. -/
theorem claim_C7_witness :
    (∃ st' ds msgs,
      executeBatch totalToolEnv demoState [goodCall, explodeCall] =
        Except.ok (st', ds, msgs) ∧
      List.Forall₂ (fun (c : ToolCall) (m : Message) =>
        ∃ content, m = Message.tool c.id content) [goodCall, explodeCall] msgs) ∧
    executeToolCall totalToolEnv demoState explodeCall =
      Except.ok (applyModeSwitches demoState explodeCall.name, [(explodeCall.name, [])],
        Message.tool explodeCall.id ("[" ++ explodeCall.name ++ "-error] " ++ "boom")) :=
  ⟨(claim_C7 totalToolEnv (fun _ => rfl)).1 demoState [goodCall, explodeCall],
   (claim_C7 totalToolEnv (fun _ => rfl)).2 demoState explodeCall [] raisingImpl
     "boom" rfl rfl rfl rfl⟩

/-- C8: for a call whose arguments parse, the invoker returns a result
record and the returned agent state is the mode-switched one — the quit tool
sets `exit_requested`, the reset tool sets `reset_requested`, the
high-brain-power tool swaps `model_name`, the private-mode tool sets
`private_chat` — with no constraint on the dispatch outcome (the
implementation mapping is arbitrary, so dispatch may succeed, fail, be
policy-blocked, or find no implementation). -/
theorem claim_C8 (env : ToolEnv) (st : AgentState) (c : ToolCall) (a : Args)
    (hparse : env.parseArgs c.arguments = some a) :
    ∃ st' ds m,
      executeToolCall env st c = Except.ok (st', ds, m) ∧
      st' = applyModeSwitches st c.name ∧
      (c.name = "quit_chat" → st'.exit_requested = true) ∧
      (c.name = "reset_chat" → st'.reset_requested = true) ∧
      (c.name = "enable_high_brain_power" → st'.model_name = HIGH_POWER_MODEL) ∧
      (c.name = "enable_private_mode" → st'.private_chat = true) := by
  obtain ⟨ds, content, h⟩ := executeToolCall_ok env st c a hparse
  refine ⟨_, ds, _, h, rfl, ?_, ?_, ?_, ?_⟩ <;>
    intro hn <;> simp [applyModeSwitches, hn]

/-- Witness for C8: executing the quit tool (whose implementation is absent
from the environment, so dispatch finds no implementation) still sets
`exit_requested`. -/
theorem claim_C8_witness :
    ∃ st' ds m,
      executeToolCall cexToolEnv demoState quitCall = Except.ok (st', ds, m) ∧
      st' = applyModeSwitches demoState quitCall.name ∧
      (quitCall.name = "quit_chat" → st'.exit_requested = true) ∧
      (quitCall.name = "reset_chat" → st'.reset_requested = true) ∧
      (quitCall.name = "enable_high_brain_power" → st'.model_name = HIGH_POWER_MODEL) ∧
      (quitCall.name = "enable_private_mode" → st'.private_chat = true) :=
  claim_C8 cexToolEnv demoState quitCall [] rfl

/-- C10: executing a tool call whose name is none of the four control tool
names leaves all four session mode flags unchanged. -/
theorem claim_C10 (env : ToolEnv) (st st' : AgentState) (c : ToolCall)
    (ds : List (String × Args)) (m : Message)
    (h1 : c.name ≠ "quit_chat") (h2 : c.name ≠ "reset_chat")
    (h3 : c.name ≠ "enable_high_brain_power")
    (h4 : c.name ≠ "enable_private_mode")
    (h : executeToolCall env st c = Except.ok (st', ds, m)) :
    st'.exit_requested = st.exit_requested ∧
    st'.reset_requested = st.reset_requested ∧
    st'.model_name = st.model_name ∧
    st'.private_chat = st.private_chat := by
  have hst := executeToolCall_state env st c st' ds m h
  rw [hst]
  unfold applyModeSwitches
  rw [if_neg h1, if_neg h2, if_neg h3, if_neg h4]
  exact ⟨rfl, rfl, rfl, rfl⟩

/-- Witness for C10: a plain web-search call leaves every mode flag as it
was. -/
theorem claim_C10_witness :
    demoState.exit_requested = demoState.exit_requested ∧
    demoState.reset_requested = demoState.reset_requested ∧
    demoState.model_name = demoState.model_name ∧
    demoState.private_chat = demoState.private_chat :=
  claim_C10 cexToolEnv demoState demoState goodCall
    [("web_search", [])] (Message.tool "call_2" "core result")
    (by decide) (by decide) (by decide) (by decide) rfl

/-- C4: for a completion sequence with finish conditions `"tool_calls"`,
`"tool_calls"`, then a plain answer, the Turn Resolver makes exactly three
completion requests (the oracle remainder `extra` comes back untouched),
performs exactly two dispatch batches (the appended record extension holds
exactly two requested-calls assistant messages, each followed by one
tool-role record per requested call), and appends exactly one final
assistant text message, whose stripped text is returned as the turn's
output. -/
theorem claim_C4 (env : ToolEnv) (hp : ∀ s, (env.parseArgs s).isSome = true)
    (r1 r2 r3 : Response) (extra : List Response) (st : AgentState)
    (conversation : List Message)
    (h1 : r1.finish_reason = "tool_calls")
    (h2 : r2.finish_reason = "tool_calls")
    (h3 : r3.finish_reason ≠ "tool_calls") :
    ∃ (st' : AgentState) (t1 t2 : List Message),
      run env (r1 :: r2 :: r3 :: extra) st conversation =
        Except.ok (st', r3.content.trim, extra) ∧
      st'.history = (appendUserMsg st conversation).history
        ++ ([Message.assistantCalls r1.tool_calls] ++ t1
          ++ [Message.assistantCalls r2.tool_calls] ++ t2
          ++ [Message.assistantText r3.content.trim]) ∧
      t1.length = r1.tool_calls.length ∧
      t2.length = r2.tool_calls.length ∧
      (∀ m ∈ t1, ∃ id content, m = Message.tool id content) ∧
      (∀ m ∈ t2, ∃ id content, m = Message.tool id content) ∧
      ([Message.assistantCalls r1.tool_calls] ++ t1
        ++ [Message.assistantCalls r2.tool_calls] ++ t2
        ++ [Message.assistantText r3.content.trim]).countP isAssistantCallsMsg = 2 ∧
      ([Message.assistantCalls r1.tool_calls] ++ t1
        ++ [Message.assistantCalls r2.tool_calls] ++ t2
        ++ [Message.assistantText r3.content.trim]).countP isAssistantTextMsg = 1 := by
  obtain ⟨stA, t1, hrw1, hh1, hfa1⟩ :=
    runLoop_round env hp r1 (r2 :: r3 :: extra) (appendUserMsg st conversation) h1
  obtain ⟨stB, t2, hrw2, hh2, hfa2⟩ :=
    runLoop_round env hp r2 (r3 :: extra) stA h2
  have hstop : runLoop env (r3 :: extra) stB =
      Except.ok
        ({ stB with history := stB.history ++ [Message.assistantText r3.content.trim] },
         r3.content.trim, extra) := by
    simp only [runLoop, if_neg h3]
  have htool1 : ∀ m ∈ t1, ∃ id content, m = Message.tool id content := by
    intro m hm
    obtain ⟨cl, _, content, hmc⟩ := forall2_mem_right hfa1 m hm
    exact ⟨cl.id, content, hmc⟩
  have htool2 : ∀ m ∈ t2, ∃ id content, m = Message.tool id content := by
    intro m hm
    obtain ⟨cl, _, content, hmc⟩ := forall2_mem_right hfa2 m hm
    exact ⟨cl.id, content, hmc⟩
  have z1c : t1.countP isAssistantCallsMsg = 0 :=
    List.countP_eq_zero.mpr (fun m hm => by
      obtain ⟨id, ct, hmt⟩ := htool1 m hm
      subst hmt
      simp [isAssistantCallsMsg])
  have z2c : t2.countP isAssistantCallsMsg = 0 :=
    List.countP_eq_zero.mpr (fun m hm => by
      obtain ⟨id, ct, hmt⟩ := htool2 m hm
      subst hmt
      simp [isAssistantCallsMsg])
  have z1t : t1.countP isAssistantTextMsg = 0 :=
    List.countP_eq_zero.mpr (fun m hm => by
      obtain ⟨id, ct, hmt⟩ := htool1 m hm
      subst hmt
      simp [isAssistantTextMsg])
  have z2t : t2.countP isAssistantTextMsg = 0 :=
    List.countP_eq_zero.mpr (fun m hm => by
      obtain ⟨id, ct, hmt⟩ := htool2 m hm
      subst hmt
      simp [isAssistantTextMsg])
  refine ⟨{ stB with history := stB.history ++ [Message.assistantText r3.content.trim] },
    t1, t2, ?_, ?_,
    (List.Forall₂.length_eq hfa1).symm, (List.Forall₂.length_eq hfa2).symm,
    htool1, htool2, ?_, ?_⟩
  · show run env (r1 :: r2 :: r3 :: extra) st conversation = _
    unfold run
    rw [hrw1, hrw2, hstop]
  · dsimp only
    rw [hh2, hh1]
    simp
  · simp [List.countP_append, List.countP_cons, z1c, z2c, isAssistantCallsMsg]
  · simp [List.countP_append, List.countP_cons, z1t, z2t, isAssistantCallsMsg,
      isAssistantTextMsg]

/-- Witness for C4: a concrete three-response turn (two tool-call rounds of
two and one calls, then a plain answer). -/
theorem claim_C4_witness :
    ∃ (st' : AgentState) (t1 t2 : List Message),
      run totalToolEnv [toolCallsResponse, oneCallResponse, stopResponse]
          demoState [Message.user "hello"] =
        Except.ok (st', stopResponse.content.trim, []) ∧
      st'.history = (appendUserMsg demoState [Message.user "hello"]).history
        ++ ([Message.assistantCalls toolCallsResponse.tool_calls] ++ t1
          ++ [Message.assistantCalls oneCallResponse.tool_calls] ++ t2
          ++ [Message.assistantText stopResponse.content.trim]) ∧
      t1.length = toolCallsResponse.tool_calls.length ∧
      t2.length = oneCallResponse.tool_calls.length ∧
      (∀ m ∈ t1, ∃ id content, m = Message.tool id content) ∧
      (∀ m ∈ t2, ∃ id content, m = Message.tool id content) ∧
      ([Message.assistantCalls toolCallsResponse.tool_calls] ++ t1
        ++ [Message.assistantCalls oneCallResponse.tool_calls] ++ t2
        ++ [Message.assistantText stopResponse.content.trim]).countP
          isAssistantCallsMsg = 2 ∧
      ([Message.assistantCalls toolCallsResponse.tool_calls] ++ t1
        ++ [Message.assistantCalls oneCallResponse.tool_calls] ++ t2
        ++ [Message.assistantText stopResponse.content.trim]).countP
          isAssistantTextMsg = 1 :=
  claim_C4 totalToolEnv (fun _ => rfl) toolCallsResponse oneCallResponse
    stopResponse [] demoState [Message.user "hello"] rfl rfl (by decide)

/-- C5: the Turn Resolver only ever extends the conversation record by
appends, and it preserves the record invariant — every tool-role message's
`tool_call_id` matches exactly one requested call of the most recent
preceding assistant message, and no tool result is appended without such a
matching request — provided every argument text parses and the requested
call ids within each assistant message are pairwise distinct. -/
theorem claim_C5 (env : ToolEnv) (hp : ∀ s, (env.parseArgs s).isSome = true)
    (responses : List Response)
    (hn : ∀ r ∈ responses, (r.tool_calls.map ToolCall.id).Nodup)
    (st st' : AgentState) (out : String) (rest : List Response)
    (conversation : List Message)
    (h : run env responses st conversation = Except.ok (st', out, rest)) :
    (∃ ext, st'.history = st.history ++ ext) ∧
    (∀ cur, histInvAux cur st.history = true → histInvAux cur st'.history = true) ∧
    (historyInv st.history = true → historyInv st'.history = true) := by
  unfold run at h
  obtain ⟨⟨ext', hext⟩, hinv⟩ :=
    runLoop_hist env hp responses _ st' out rest hn h
  obtain ⟨⟨u, hu⟩, huinv⟩ := appendUserMsg_hist st conversation
  refine ⟨⟨u ++ ext', ?_⟩, ?_, ?_⟩
  · rw [hext, hu]
    simp
  · intro cur hcur
    exact hinv cur (huinv cur hcur)
  · intro hcur
    exact hinv [] (huinv [] hcur)

/-- Witness for C5: a one-response turn appends only, and the invariant holds
on the resulting record. -/
theorem claim_C5_witness :
    (∃ ext, demoFinalState.history = demoState.history ++ ext) ∧
    historyInv demoFinalState.history = true :=
  ⟨(claim_C5 totalToolEnv (fun _ => rfl) [stopResponse] (by decide) demoState
      demoFinalState stopResponse.content.trim [] [Message.user "hello"] rfl).1,
   (claim_C5 totalToolEnv (fun _ => rfl) [stopResponse] (by decide) demoState
      demoFinalState stopResponse.content.trim [] [Message.user "hello"] rfl).2.2 rfl⟩

/-- C2 (counterexample): with the built-in registry and the community loader
both declaring `web_search`, the returned pair holds exactly one schema —
the built-in one — but the implementation returned for `web_search` is the
community one, not the built-in one: `dict.update` lets the later source
overwrite the earlier implementation, so the built-in implementation IS
shadowed, refuting "both taken from the higher-precedence source". -/
theorem claim_C2_counterexample :
    (initializeAppTools cexLoaderCfg cexLoaderSrc).2 =
      [RawSchema.func "web_search" "built-in web search"] ∧
    (dget (initializeAppTools cexLoaderCfg cexLoaderSrc).1 "web_search").map
      (fun f => f []) = some (Except.ok "community result") ∧
    (dget (initializeAppTools cexLoaderCfg cexLoaderSrc).1 "web_search").map
      (fun f => f []) ≠ some (coreSearchImpl []) := by
  have e1 : (dget (initializeAppTools cexLoaderCfg cexLoaderSrc).1 "web_search").map
      (fun f => f []) = some (Except.ok "community result") := rfl
  have e2 : coreSearchImpl [] = Except.ok "core result" := rfl
  refine ⟨rfl, e1, ?_⟩
  rw [e1, e2]
  simp

/-- C2 (amended): when two sources declare a tool named `X`, the registry
build returns exactly one schema for `X`, taken from the higher-precedence
source (schema de-duplication is first-wins), and exactly one implementation
for `X`, taken from the lower-precedence (later merged) source, because the
implementation merge uses dict update and later sources overwrite earlier
ones — a built-in tool's schema is never shadowed, but its implementation
is. -/
theorem claim_C2 (X d1 d2 : String) (f g : Impl) :
    initializeAppTools (twoSourceCfg X) (twoSourceSrc X d1 d2 f g) =
      ([(X, g)], [RawSchema.func X d1]) := by
  simp [initializeAppTools, twoSourceCfg, twoSourceSrc, cexLoaderCfg, cexLoaderSrc,
    filterImplsBySection, filterBySection, schemaName?, dupdate, dinsert, dget,
    finalizeSchemas, dedupStep, normalizeSchema, filterImpls]

/-- C3 (counterexample): a configuration whose core registry carries an
enabled schema named `ghost_tool` with no implementation of that name
returns a schema list naming `ghost_tool` while the returned implementation
mapping is empty — the returned pair is NOT in lock-step: the
implementation-less schema is not excluded. -/
theorem claim_C3_counterexample :
    (initializeAppTools ghostLoaderCfg ghostLoaderSrc).2.map schemaName? =
      [some "ghost_tool"] ∧
    dget (initializeAppTools ghostLoaderCfg ghostLoaderSrc).1 "ghost_tool" = none ∧
    (initializeAppTools ghostLoaderCfg ghostLoaderSrc).1 = [] :=
  ⟨rfl, rfl, rfl⟩

/-- C3 (amended): one direction of lock-step holds — every entry of the
returned implementation mapping has a name carried by some schema in the
returned schema list (implementations are filtered to the surviving schema
names); the converse direction fails (see the counterexample). -/
theorem claim_C3 (cfg : LoaderConfig) (src : LoaderSources) :
    ∀ p ∈ (initializeAppTools cfg src).1,
      ∃ s ∈ (initializeAppTools cfg src).2, schemaName? s = some p.1 := by
  obtain ⟨S, I, hSI⟩ : ∃ S I,
      initializeAppTools cfg src =
        (filterImpls (finalizeSchemas S).2 I, (finalizeSchemas S).1) :=
    ⟨_, _, rfl⟩
  intro p hp
  rw [hSI] at hp ⊢
  have hseen := filterImpls_sub _ _ p hp
  simp only [finalizeSchemas] at hseen ⊢
  exact finalize_names S ([], []) (by intro n hn; cases hn) p.1 hseen

/-- Witness for C3: the community `web_search` implementation survives, and a
schema of that name is in the returned schema list. -/
theorem claim_C3_witness :
    ∃ s ∈ (initializeAppTools cexLoaderCfg cexLoaderSrc).2,
      schemaName? s = some ("web_search", commSearchImpl).1 :=
  claim_C3 cexLoaderCfg cexLoaderSrc ("web_search", commSearchImpl) (by
    have e : (initializeAppTools cexLoaderCfg cexLoaderSrc).1 =
        [("web_search", commSearchImpl)] := rfl
    rw [e]
    exact List.mem_singleton.2 rfl)

/-- C9: a tool or server declaring required environment variables that are
missing is silently skipped and contributes zero tools, while the remaining
configurations continue to be processed: deleting such a community tool
configuration from the list does not change `load_community_tools`' result,
and such an MCP server configuration is a no-op step of the
server-processing loop. -/
theorem claim_C9 (env : LoadEnv) :
    (∀ (pre post : List CommToolConfig) (cfg : CommToolConfig)
       (vars : List String),
       cfg.required_env_vars = some vars →
       (missingEnvVars env vars).isEmpty = false →
       loadCommunityTools env (pre ++ cfg :: post) =
         loadCommunityTools env (pre ++ post)) ∧
    (∀ (server : McpServerConfig) (vars : List String) (i : Nat)
       (acc : List (String × (Option String × Option String)) ×
              List (String × List (String × McpToolConfig)))
       (l : List (Nat × McpServerConfig)),
       server.required_env_vars = some vars →
       (missingEnvVars env vars).isEmpty = false →
       List.foldl (processServerStep env) acc ((i, server) :: l) =
         List.foldl (processServerStep env) acc l) := by
  constructor
  · intro pre post cfg vars hreq hmiss
    have hskip : ∀ acc, loadCommunityStep env acc cfg = acc := by
      intro acc
      unfold loadCommunityStep
      rw [hreq]
      dsimp only
      rw [if_neg (by simp [hmiss])]
    unfold loadCommunityTools
    rw [List.foldl_append, List.foldl_append, List.foldl_cons, hskip]
  · intro server vars i acc l hreq hmiss
    rw [List.foldl_cons]
    have hskip : processServerStep env acc (i, server) = acc := by
      unfold processServerStep
      dsimp only
      rw [hreq]
      dsimp only
      rw [hmiss]
      rfl
    rw [hskip]

/-- Witness for C9: with an empty process environment, a community tool
requiring `BUTLER_WIKI_KEY` and an MCP server requiring
`BUTLER_CALENDAR_TOKEN` are both skipped. -/
theorem claim_C9_witness :
    loadCommunityTools emptyEnvLoadEnv ([] ++ wikiToolConfig :: []) =
      loadCommunityTools emptyEnvLoadEnv ([] ++ []) ∧
    List.foldl (processServerStep emptyEnvLoadEnv) ([], [])
        [(0, calendarServerConfig)] =
      List.foldl (processServerStep emptyEnvLoadEnv) ([], []) [] :=
  ⟨(claim_C9 emptyEnvLoadEnv).1 [] [] wikiToolConfig ["BUTLER_WIKI_KEY"] rfl rfl,
   (claim_C9 emptyEnvLoadEnv).2 calendarServerConfig ["BUTLER_CALENDAR_TOKEN"]
     0 ([], []) [] rfl rfl⟩

end Butler
